import Mathlib

/-!
Verification development for the boring-vault-svm client connectors.

The embedding models, byte for byte, the code of
`src/python/boring_vault_svm/connectors.py` and the account-record schema of
`src/python/tests/test_sub_accounts.py`.  Bytes are natural numbers below 256,
buffers are lists of naturals.  Network interaction of the two command
builders is made explicit as a trace of RPC calls performed.
-/

/-- Little-endian byte extraction: `natLE k n` is the list of the `k` low
little-endian base-256 digits of `n`, mirroring Python's
`n.to_bytes(k, 'little')` and `construct`'s `Int64ul.build`. -/
def natLE : Nat → Nat → List Nat
  | 0, _ => []
  | k + 1, n => n % 256 :: natLE k (n / 256)

/-- Little-endian reconstruction of a natural from a byte list, mirroring
`int.from_bytes(bs, 'little')` used by `construct` integer parsing. -/
def leNat (bs : List Nat) : Nat :=
  bs.foldr (fun b acc => b + 256 * acc) 0

theorem natLE_length (k n : Nat) : (natLE k n).length = k := by
  induction k generalizing n with
  | zero => rfl
  | succ k ih => simp [natLE, ih]

theorem natLE_lt (k n : Nat) : ∀ b ∈ natLE k n, b < 256 := by
  induction k generalizing n with
  | zero => intro b hb; simp [natLE] at hb
  | succ k ih =>
    intro b hb
    simp only [natLE, List.mem_cons] at hb
    rcases hb with h | h
    · subst h; exact Nat.mod_lt _ (by norm_num)
    · exact ih _ _ h

theorem leNat_natLE (k n : Nat) (h : n < 256 ^ k) : leNat (natLE k n) = n := by
  induction k generalizing n with
  | zero =>
    simp only [Nat.pow_zero, Nat.lt_one_iff] at h
    simp [natLE, leNat, h]
  | succ k ih =>
    have hdiv : n / 256 < 256 ^ k := by
      rw [Nat.div_lt_iff_lt_mul (by norm_num)]
      calc n < 256 ^ (k + 1) := h
        _ = 256 ^ k * 256 := by ring
    simp only [natLE, leNat, List.foldr_cons]
    have := ih (n / 256) hdiv
    simp only [leNat] at this
    rw [this]
    omega

/-- Python's `vault_id.to_bytes(8, 'little')`: 8 little-endian bytes, or
failure (`OverflowError`) when the value does not fit in 64 bits. -/
def to_bytes_le8 (n : Nat) : Option (List Nat) :=
  if n < 2 ^ 64 then some (natLE 8 n) else none

theorem to_bytes_le8_of_lt {n : Nat} (h : n < 2 ^ 64) :
    to_bytes_le8 n = some (natLE 8 n) := by
  simp only [to_bytes_le8]
  rw [if_pos h]

/-- The 8-byte discriminator of the set-deposit-sub-account instruction,
`SET_DEPOSIT_SUB_ACCOUNT_DISCRIMINATOR` in connectors.py. -/
def SET_DEPOSIT_SUB_ACCOUNT_DISCRIMINATOR : List Nat :=
  [135, 238, 218, 4, 120, 77, 207, 156]

/-- The 8-byte discriminator of the set-withdraw-sub-account instruction,
`SET_WITHDRAW_SUB_ACCOUNT_DISCRIMINATOR` in connectors.py. -/
def SET_WITHDRAW_SUB_ACCOUNT_DISCRIMINATOR : List Nat :=
  [152, 197, 103, 249, 56, 180, 0, 172]

/-- The namespace seed `BASE_SEED_BORING_VAULT_STATE = b"boring-vault-state"`
as its ASCII byte values. -/
def BASE_SEED_BORING_VAULT_STATE : List Nat :=
  "boring-vault-state".toList.map Char.toNat

/-- The `args_struct = CStruct("vault_id" / U64, "new_sub_account" / U8)`
builder: packs the vault id as 8 little-endian bytes followed by the one-byte
sub-account selector.  `construct` raises on out-of-range field values, so
the result is `none` whenever a field does not fit its declared width. -/
def encode_command_args (vault_id new_sub_account : Nat) : Option (List Nat) :=
  if vault_id < 2 ^ 64 ∧ new_sub_account < 256 then
    some (natLE 8 vault_id ++ [new_sub_account])
  else none

theorem encode_command_args_of_lt {vault_id new_sub_account : Nat}
    (h1 : vault_id < 2 ^ 64) (h2 : new_sub_account < 256) :
    encode_command_args vault_id new_sub_account =
      some (natLE 8 vault_id ++ [new_sub_account]) := by
  simp only [encode_command_args]
  rw [if_pos ⟨h1, h2⟩]

/-- The `args_struct` parser: reads a `u64` little-endian then a `u8` from
the front of the buffer, failing on a buffer shorter than 9 bytes. -/
def decode_command_args (bs : List Nat) : Option (Nat × Nat) :=
  if 9 ≤ bs.length then
    some (leNat (bs.take 8), leNat ((bs.drop 8).take 1))
  else none

/-- Instruction data of the set-deposit-sub-account command:
discriminator prepended to the packed arguments (connectors.py line 58). -/
def deposit_instruction_data (vault_id new_sub_account : Nat) :
    Option (List Nat) :=
  (encode_command_args vault_id new_sub_account).map
    (fun args => SET_DEPOSIT_SUB_ACCOUNT_DISCRIMINATOR ++ args)

/-- Instruction data of the set-withdraw-sub-account command:
discriminator prepended to the packed arguments (connectors.py line 104). -/
def withdraw_instruction_data (vault_id new_sub_account : Nat) :
    Option (List Nat) :=
  (encode_command_args vault_id new_sub_account).map
    (fun args => SET_WITHDRAW_SUB_ACCOUNT_DISCRIMINATOR ++ args)

/-- Field types appearing in the `boring_vault_flat_struct` borsh schema of
test_sub_accounts.py: unsigned little-endian integers of widths 1, 2, 4, 8,
a one-byte flag, and a raw 32-byte value. -/
inductive FieldType : Type
  | u8
  | u16
  | u32
  | u64
  | boolFlag
  | bytes32
deriving DecidableEq, Repr

/-- Byte width of each field type, exactly as `construct` consumes it. -/
def fieldWidth : FieldType → Nat
  | .u8 => 1
  | .u16 => 2
  | .u32 => 4
  | .u64 => 8
  | .boolFlag => 1
  | .bytes32 => 32

/-- Decoded value of one field: an unsigned integer, a flag (any non-zero
byte is true, as `construct.Flag` parses it), or raw bytes. -/
inductive FieldVal : Type
  | uint (n : Nat)
  | flag (b : Bool)
  | raw (bs : List Nat)
deriving DecidableEq, Repr

/-- Reading `k` bytes from the front of a stream: the chunk and the rest, or
failure when fewer than `k` bytes remain (construct's StreamError). -/
def readBytes (k : Nat) (bs : List Nat) : Option (List Nat × List Nat) :=
  if k ≤ bs.length then some (bs.take k, bs.drop k) else none

/-- Interpretation of one consumed chunk according to its field type. -/
def interpField : FieldType → List Nat → FieldVal
  | .bytes32, chunk => .raw chunk
  | .boolFlag, chunk => .flag (decide (leNat chunk ≠ 0))
  | _, chunk => .uint (leNat chunk)

/-- Sequential parsing of a named-field schema from a byte stream, exactly
as `construct.Struct.parse_stream` walks its subconstructs: each field
consumes its width in order; a short stream fails; trailing bytes are left
in the stream. -/
def parseFields :
    List (String × FieldType) → List Nat →
      Option (List (String × FieldVal) × List Nat)
  | [], bs => some ([], bs)
  | f :: rest, bs =>
    match readBytes (fieldWidth f.2) bs with
    | none => none
    | some (chunk, bs1) =>
      match parseFields rest bs1 with
      | none => none
      | some (vs, bs2) => some ((f.1, interpField f.2 chunk) :: vs, bs2)

/-- The `boring_vault_flat_struct` schema from test_sub_accounts.py, field
names, order and widths transcribed verbatim. -/
def boring_vault_flat_struct : List (String × FieldType) :=
  [("config_vault_id", .u64),
   ("config_authority", .bytes32),
   ("config_pending_authority", .bytes32),
   ("config_paused", .boolFlag),
   ("config_share_mint", .bytes32),
   ("config_deposit_sub_account", .u8),
   ("config_withdraw_sub_account", .u8),
   ("teller_base_asset", .bytes32),
   ("teller_decimals", .u8),
   ("teller_exchange_rate_provider", .bytes32),
   ("teller_exchange_rate", .u64),
   ("teller_exchange_rate_high_water_mark", .u64),
   ("teller_fees_owed_in_base_asset", .u64),
   ("teller_total_shares_last_update", .u64),
   ("teller_last_update_timestamp", .u64),
   ("teller_payout_address", .bytes32),
   ("teller_allowed_exchange_rate_change_upper_bound", .u16),
   ("teller_allowed_exchange_rate_change_lower_bound", .u16),
   ("teller_minimum_update_delay_in_seconds", .u32),
   ("teller_platform_fee_bps", .u16),
   ("teller_performance_fee_bps", .u16),
   ("teller_withdraw_authority", .bytes32),
   ("manager_strategist", .bytes32)]

/-- Sum of the declared field widths of a schema. -/
def sumWidths (L : List (String × FieldType)) : Nat :=
  (L.map (fun f => fieldWidth f.2)).sum

/-- Decoding an account-record buffer: `boring_vault_flat_struct.parse`,
which parses the fields in order from the front of the buffer and, like
`construct`'s `parse`, ignores any bytes left over after the last field. -/
def decode_account_record (bs : List Nat) :
    Option (List (String × FieldVal)) :=
  (parseFields boring_vault_flat_struct bs).map Prod.fst

theorem parseFields_isSome_iff (L : List (String × FieldType)) :
    ∀ bs : List Nat,
      (parseFields L bs).isSome = true ↔ sumWidths L ≤ bs.length := by
  induction L with
  | nil => intro bs; simp [parseFields, sumWidths]
  | cons f rest ih =>
    intro bs
    have hsum : sumWidths (f :: rest) = fieldWidth f.2 + sumWidths rest := by
      simp [sumWidths]
    by_cases hk : fieldWidth f.2 ≤ bs.length
    · have hread : readBytes (fieldWidth f.2) bs =
          some (bs.take (fieldWidth f.2), bs.drop (fieldWidth f.2)) := by
        simp [readBytes, hk]
      have hdroplen : (bs.drop (fieldWidth f.2)).length =
          bs.length - fieldWidth f.2 := by simp
      rcases hr : parseFields rest (bs.drop (fieldWidth f.2)) with _ | pr
      · have hnot : ¬ sumWidths rest ≤ bs.length - fieldWidth f.2 := by
          intro hle
          have hs := (ih (bs.drop (fieldWidth f.2))).mpr (by rw [hdroplen]; exact hle)
          rw [hr] at hs
          simp at hs
        simp only [parseFields, hread, hr, hsum]
        simp only [Option.isSome_none, Bool.false_eq_true, false_iff]
        omega
      · have hyes := ih (bs.drop (fieldWidth f.2))
        rw [hr] at hyes
        simp only [Option.isSome_some, true_iff] at hyes
        rw [hdroplen] at hyes
        simp only [parseFields, hread, hr, hsum]
        simp only [Option.isSome_some, true_iff]
        omega
    · simp only [parseFields, readBytes, if_neg hk, hsum]
      simp only [Option.isSome_none, Bool.false_eq_true, false_iff]
      omega

/-- A 32-byte public key, modelled as its byte list. -/
abbrev Pubkey : Type := List Nat

/-- An account reference of an instruction: `solders.instruction.AccountMeta`
with its pubkey, signer flag and writable flag. -/
structure AccountMeta : Type where
  pubkey : Pubkey
  is_signer : Bool
  is_writable : Bool
deriving DecidableEq

/-- An instruction: `solders.instruction.Instruction` with target program,
raw data bytes and ordered account references. -/
structure Instruction : Type where
  program_id : Pubkey
  data : List Nat
  accounts : List AccountMeta
deriving DecidableEq

/-- A compiled v0 message: payer, instruction list and the recent blockhash
it was compiled against (`MessageV0.try_compile` with no lookup tables). -/
structure MessageV0 : Type where
  payer : Pubkey
  instructions : List Instruction
  recent_blockhash : List Nat
deriving DecidableEq

/-- A signing keypair, reduced to its public key; the private half only ever
produces a signature and never influences any value this model observes. -/
structure Keypair : Type where
  pubkey : Pubkey
deriving DecidableEq

/-- A signed versioned transaction: the compiled message together with the
public keys of the keypairs that signed it. -/
structure VersionedTransaction : Type where
  message : MessageV0
  signer_pubkeys : List Pubkey
deriving DecidableEq

/-- The RPC transport as the builders observe it: the blockhash the next
`get_latest_blockhash` returns, and the tracking signature the transport
hands back for a submitted transaction. -/
structure Client : Type where
  latest_blockhash : List Nat
  send_result : VersionedTransaction → List Nat

/-- One network interaction performed through the RPC client. -/
inductive RpcCall : Type
  | getLatestBlockhash
  | sendTransaction (tx : VersionedTransaction)
  | confirmTransaction (sig : List Nat)
deriving DecidableEq

/-- Failure of a builder before any value is returned: the bump search
exhausted all 256 bumps, or a field value exceeded its declared width. -/
inductive BuildError : Type
  | derivationExhausted
  | encodingConstraintViolation
deriving DecidableEq

/-- Modelled from the spec: the body of `Pubkey.find_program_address` is
library code absent from this repository, so the bump search follows §4.2 of
the spec, with the hash and the off-curve test abstracted as parameters.
`bumpSearch` tries bump values `k-1, k-2, …, 0`, hashing the concatenated
seeds, one bump byte and the program id, and returns the first address
passing the off-curve test. -/
def bumpSearch (hash : List Nat → List Nat) (offCurve : List Nat → Bool)
    (base : List Nat) (program_id : Pubkey) : Nat → Option (Pubkey × Nat)
  | 0 => none
  | k + 1 =>
    let addr := hash (base ++ [k] ++ program_id)
    if offCurve addr then some (addr, k)
    else bumpSearch hash offCurve base program_id k

/-- Modelled from the spec: `Pubkey.find_program_address` — deterministic
search over bumps 255 down to 0 of the first off-curve hash of
{seeds, bump, program id}; `none` when all 256 bumps fail (§4.2
`NoValidAddress`). -/
def find_program_address (hash : List Nat → List Nat)
    (offCurve : List Nat → Bool) (seeds : List (List Nat))
    (program_id : Pubkey) : Option (Pubkey × Nat) :=
  bumpSearch hash offCurve seeds.flatten program_id 256

/-- The `set_deposit_sub_account` connector, connectors.py lines 40-84:
derives the vault-state PDA, packs the arguments, prefixes the deposit
discriminator, assembles the two account references, compiles and signs a
versioned transaction against the latest blockhash, submits it, and returns
the transport's tracking signature.  The returned list records every RPC
call performed, in order. -/
def set_deposit_sub_account (hash : List Nat → List Nat)
    (offCurve : List Nat → Bool) (client : Client) (program_id : Pubkey)
    (vault_id : Nat) (new_sub_account : Nat) (authority : Keypair) :
    List RpcCall × Except BuildError (List Nat) :=
  match to_bytes_le8 vault_id with
  | none => ([], .error .encodingConstraintViolation)
  | some vault_id_bytes =>
    match find_program_address hash offCurve
        [BASE_SEED_BORING_VAULT_STATE, vault_id_bytes] program_id with
    | none => ([], .error .derivationExhausted)
    | some (vault_state_pda, _) =>
      match encode_command_args vault_id new_sub_account with
      | none => ([], .error .encodingConstraintViolation)
      | some encoded_args =>
        let instruction_data :=
          SET_DEPOSIT_SUB_ACCOUNT_DISCRIMINATOR ++ encoded_args
        let accounts :=
          [AccountMeta.mk authority.pubkey true false,
           AccountMeta.mk vault_state_pda false true]
        let instruction := Instruction.mk program_id instruction_data accounts
        let recent_blockhash := client.latest_blockhash
        let message := MessageV0.mk authority.pubkey [instruction]
          recent_blockhash
        let transaction := VersionedTransaction.mk message [authority.pubkey]
        let result := client.send_result transaction
        ([.getLatestBlockhash, .sendTransaction transaction], .ok result)

/-- The `set_withdraw_sub_account` connector, connectors.py lines 86-115:
identical to the deposit builder except for the discriminator prefixed to
the packed arguments. -/
def set_withdraw_sub_account (hash : List Nat → List Nat)
    (offCurve : List Nat → Bool) (client : Client) (program_id : Pubkey)
    (vault_id : Nat) (new_sub_account : Nat) (authority : Keypair) :
    List RpcCall × Except BuildError (List Nat) :=
  match to_bytes_le8 vault_id with
  | none => ([], .error .encodingConstraintViolation)
  | some vault_id_bytes =>
    match find_program_address hash offCurve
        [BASE_SEED_BORING_VAULT_STATE, vault_id_bytes] program_id with
    | none => ([], .error .derivationExhausted)
    | some (vault_state_pda, _) =>
      match encode_command_args vault_id new_sub_account with
      | none => ([], .error .encodingConstraintViolation)
      | some encoded_args =>
        let instruction_data :=
          SET_WITHDRAW_SUB_ACCOUNT_DISCRIMINATOR ++ encoded_args
        let accounts :=
          [AccountMeta.mk authority.pubkey true false,
           AccountMeta.mk vault_state_pda false true]
        let instruction := Instruction.mk program_id instruction_data accounts
        let recent_blockhash := client.latest_blockhash
        let message := MessageV0.mk authority.pubkey [instruction]
          recent_blockhash
        let transaction := VersionedTransaction.mk message [authority.pubkey]
        let result := client.send_result transaction
        ([.getLatestBlockhash, .sendTransaction transaction], .ok result)

theorem take8_append_natLE (v : Nat) (rest : List Nat) :
    (natLE 8 v ++ rest).take 8 = natLE 8 v := by
  have h := List.take_left (natLE 8 v) rest
  rwa [natLE_length] at h

theorem drop8_append_natLE (v : Nat) (rest : List Nat) :
    (natLE 8 v ++ rest).drop 8 = rest := by
  have h := List.drop_left (natLE 8 v) rest
  rwa [natLE_length] at h

theorem pow_256_8 : (256 : Nat) ^ 8 = 2 ^ 64 := by norm_num

/-- C1: for every identifier below 2^64 and selector below 256 the
set-deposit-sub-account instruction data is the fixed 8-byte discriminator,
the identifier as 8 little-endian bytes and the 1-byte selector, 17 bytes in
all; at identifier 1 and selector 5 it is the exact 17-byte buffer of the
spec scenario. -/
theorem deposit_instruction_data_wire_format
    (vault_id new_sub_account : Nat) (h1 : vault_id < 2 ^ 64)
    (h2 : new_sub_account < 256) :
    deposit_instruction_data vault_id new_sub_account =
      some (SET_DEPOSIT_SUB_ACCOUNT_DISCRIMINATOR ++
        natLE 8 vault_id ++ [new_sub_account]) ∧
    (SET_DEPOSIT_SUB_ACCOUNT_DISCRIMINATOR ++
        natLE 8 vault_id ++ [new_sub_account]).length = 17 ∧
    deposit_instruction_data 1 5 =
      some [0x87, 0xEE, 0xDA, 0x04, 0x78, 0x4D, 0xCF, 0x9C,
            0x01, 0x00, 0x00, 0x00, 0x00, 0x00, 0x00, 0x00, 0x05] := by
  refine ⟨?_, ?_, by decide⟩
  · simp [deposit_instruction_data, encode_command_args_of_lt h1 h2]
  · simp [SET_DEPOSIT_SUB_ACCOUNT_DISCRIMINATOR, natLE_length]

theorem deposit_instruction_data_wire_format_witness :
    deposit_instruction_data 2 7 =
      some (SET_DEPOSIT_SUB_ACCOUNT_DISCRIMINATOR ++ natLE 8 2 ++ [7]) ∧
    (SET_DEPOSIT_SUB_ACCOUNT_DISCRIMINATOR ++ natLE 8 2 ++ [7]).length = 17 ∧
    deposit_instruction_data 1 5 =
      some [0x87, 0xEE, 0xDA, 0x04, 0x78, 0x4D, 0xCF, 0x9C,
            0x01, 0x00, 0x00, 0x00, 0x00, 0x00, 0x00, 0x00, 0x05] :=
  deposit_instruction_data_wire_format 2 7 (by norm_num) (by norm_num)

/-- C4: at identifier 1 and selector 10 the set-withdraw-sub-account
instruction data is the withdraw discriminator
`[0x98, 0xC5, 0x67, 0xF9, 0x38, 0xB4, 0x00, 0xAC]` followed by the 8-byte
little-endian encoding of 1 followed by the byte 0x0A. -/
theorem withdraw_scenario_vault1_selector10 :
    SET_WITHDRAW_SUB_ACCOUNT_DISCRIMINATOR =
      [0x98, 0xC5, 0x67, 0xF9, 0x38, 0xB4, 0x00, 0xAC] ∧
    withdraw_instruction_data 1 10 =
      some (SET_WITHDRAW_SUB_ACCOUNT_DISCRIMINATOR ++ natLE 8 1 ++ [0x0A]) ∧
    withdraw_instruction_data 1 10 =
      some [0x98, 0xC5, 0x67, 0xF9, 0x38, 0xB4, 0x00, 0xAC,
            0x01, 0x00, 0x00, 0x00, 0x00, 0x00, 0x00, 0x00, 0x0A] := by
  refine ⟨by decide, by decide, by decide⟩

/-- C5: for every identifier below 2^64 and selector below 256 the argument
encoder yields exactly 9 bytes, the identifier as 8 little-endian base-256
digits directly followed by the selector byte, nothing else; the 8 leading
bytes reconstruct the identifier and every byte is below 256. -/
theorem encode_command_args_layout
    (vault_id new_sub_account : Nat) (h1 : vault_id < 2 ^ 64)
    (h2 : new_sub_account < 256) :
    encode_command_args vault_id new_sub_account =
      some (natLE 8 vault_id ++ [new_sub_account]) ∧
    (natLE 8 vault_id ++ [new_sub_account]).length = 9 ∧
    (natLE 8 vault_id).length = 8 ∧
    leNat (natLE 8 vault_id) = vault_id ∧
    ∀ b ∈ natLE 8 vault_id ++ [new_sub_account], b < 256 := by
  refine ⟨encode_command_args_of_lt h1 h2, ?_, natLE_length 8 vault_id,
    leNat_natLE 8 vault_id (by rw [pow_256_8]; exact h1), ?_⟩
  · simp [natLE_length]
  · intro b hb
    rcases List.mem_append.mp hb with h | h
    · exact natLE_lt 8 vault_id b h
    · simp only [List.mem_singleton] at h
      omega

theorem encode_command_args_layout_witness :
    encode_command_args 3 9 = some (natLE 8 3 ++ [9]) ∧
    (natLE 8 3 ++ [9]).length = 9 ∧
    (natLE 8 3).length = 8 ∧
    leNat (natLE 8 3) = 3 ∧
    ∀ b ∈ natLE 8 3 ++ [9], b < 256 :=
  encode_command_args_layout 3 9 (by norm_num) (by norm_num)

/-- C3: for every identifier below 2^64 and selector below 256 the decoder
applied to the encoder's 9-byte output returns exactly the original pair:
the encode/decode round trip is the identity on the whole argument domain. -/
theorem encode_decode_roundtrip
    (vault_id new_sub_account : Nat) (h1 : vault_id < 2 ^ 64)
    (h2 : new_sub_account < 256) :
    ∃ buf, encode_command_args vault_id new_sub_account = some buf ∧
      decode_command_args buf = some (vault_id, new_sub_account) := by
  refine ⟨natLE 8 vault_id ++ [new_sub_account],
    encode_command_args_of_lt h1 h2, ?_⟩
  have hlen : (natLE 8 vault_id ++ [new_sub_account]).length = 9 := by
    simp [natLE_length]
  simp only [decode_command_args, hlen]
  rw [if_pos (by norm_num)]
  rw [take8_append_natLE, drop8_append_natLE]
  have htake : List.take 1 [new_sub_account] = [new_sub_account] := rfl
  rw [htake, leNat_natLE 8 vault_id (by rw [pow_256_8]; exact h1)]
  simp [leNat]

theorem encode_decode_roundtrip_witness :
    ∃ buf, encode_command_args 4 200 = some buf ∧
      decode_command_args buf = some (4, 200) :=
  encode_decode_roundtrip 4 200 (by norm_num) (by norm_num)

theorem sumWidths_boring_vault_flat_struct :
    sumWidths boring_vault_flat_struct = 320 := by
  decide

theorem decode_account_record_isSome_iff (bs : List Nat) :
    (decode_account_record bs).isSome = true ↔ 320 ≤ bs.length := by
  have h := parseFields_isSome_iff boring_vault_flat_struct bs
  rw [sumWidths_boring_vault_flat_struct] at h
  rw [← h]
  simp only [decode_account_record]
  cases parseFields boring_vault_flat_struct bs <;> simp

/-- C2 as stated is false: the field widths of `boring_vault_flat_struct`
sum to 320, not 244, and `construct`'s `parse` ignores trailing bytes, so a
320-byte all-zero buffer — whose length differs from 244 — decodes
successfully, and the 244-byte buffer the claim calls well-formed is in fact
rejected. -/
theorem decode_account_record_claim_counterexample :
    (List.replicate 320 (0 : Nat)).length ≠ 244 ∧
    (decode_account_record (List.replicate 320 (0 : Nat))).isSome = true ∧
    decode_account_record (List.replicate 244 (0 : Nat)) = none := by
  refine ⟨by simp only [List.length_replicate]; omega, ?_, ?_⟩
  · have h := parseFields_isSome_iff boring_vault_flat_struct
      (List.replicate 320 (0 : Nat))
    rw [sumWidths_boring_vault_flat_struct] at h
    have hs : (parseFields boring_vault_flat_struct
        (List.replicate 320 (0 : Nat))).isSome = true :=
      h.mpr (by simp only [List.length_replicate]; omega)
    simp only [decode_account_record]
    cases hp : parseFields boring_vault_flat_struct
        (List.replicate 320 (0 : Nat)) with
    | none => rw [hp] at hs; simp at hs
    | some p => simp
  · have h := parseFields_isSome_iff boring_vault_flat_struct
      (List.replicate 244 (0 : Nat))
    rw [sumWidths_boring_vault_flat_struct] at h
    have hs : ¬ (parseFields boring_vault_flat_struct
        (List.replicate 244 (0 : Nat))).isSome = true := by
      rw [h]; simp only [List.length_replicate]; omega
    simp only [decode_account_record]
    cases hp : parseFields boring_vault_flat_struct
        (List.replicate 244 (0 : Nat)) with
    | none => simp
    | some p => rw [hp] at hs; simp at hs

/-- C2 amended: the account-record decoder fails on every buffer shorter
than 320 bytes — the sum of the declared field widths, which is 320, not
244 — and never yields a partial record there; every buffer of length at
least 320 decodes, the fields taken from the first 320 bytes and any
trailing bytes ignored. -/
theorem decode_account_record_length (bs : List Nat) :
    (bs.length < 320 → decode_account_record bs = none) ∧
    (320 ≤ bs.length → (decode_account_record bs).isSome = true) := by
  constructor
  · intro hlt
    have h := (decode_account_record_isSome_iff bs).not
    have hnot : ¬ (decode_account_record bs).isSome = true := by
      rw [h]; omega
    cases hp : decode_account_record bs with
    | none => rfl
    | some p => rw [hp] at hnot; simp at hnot
  · intro hge
    exact (decode_account_record_isSome_iff bs).mpr hge

theorem decode_account_record_length_witness :
    decode_account_record (List.replicate 100 (0 : Nat)) = none ∧
    (decode_account_record (List.replicate 321 (0 : Nat))).isSome = true :=
  ⟨(decode_account_record_length (List.replicate 100 (0 : Nat))).1
      (by simp only [List.length_replicate]; omega),
   (decode_account_record_length (List.replicate 321 (0 : Nat))).2
      (by simp only [List.length_replicate]; omega)⟩

theorem set_deposit_sub_account_eq (hash : List Nat → List Nat)
    (offCurve : List Nat → Bool) (client : Client) (program_id : Pubkey)
    (vault_id new_sub_account : Nat) (authority : Keypair)
    (pda : Pubkey) (bump : Nat) (h64 : vault_id < 2 ^ 64)
    (hsel : new_sub_account < 256)
    (hpda : find_program_address hash offCurve
      [BASE_SEED_BORING_VAULT_STATE, natLE 8 vault_id] program_id =
        some (pda, bump)) :
    set_deposit_sub_account hash offCurve client program_id vault_id
        new_sub_account authority =
      ([RpcCall.getLatestBlockhash,
        RpcCall.sendTransaction
          (VersionedTransaction.mk
            (MessageV0.mk authority.pubkey
              [Instruction.mk program_id
                (SET_DEPOSIT_SUB_ACCOUNT_DISCRIMINATOR ++
                  (natLE 8 vault_id ++ [new_sub_account]))
                [AccountMeta.mk authority.pubkey true false,
                 AccountMeta.mk pda false true]]
              client.latest_blockhash)
            [authority.pubkey])],
       Except.ok (client.send_result
          (VersionedTransaction.mk
            (MessageV0.mk authority.pubkey
              [Instruction.mk program_id
                (SET_DEPOSIT_SUB_ACCOUNT_DISCRIMINATOR ++
                  (natLE 8 vault_id ++ [new_sub_account]))
                [AccountMeta.mk authority.pubkey true false,
                 AccountMeta.mk pda false true]]
              client.latest_blockhash)
            [authority.pubkey]))) := by
  simp only [set_deposit_sub_account, to_bytes_le8_of_lt h64, hpda,
    encode_command_args_of_lt h64 hsel]

theorem set_withdraw_sub_account_eq (hash : List Nat → List Nat)
    (offCurve : List Nat → Bool) (client : Client) (program_id : Pubkey)
    (vault_id new_sub_account : Nat) (authority : Keypair)
    (pda : Pubkey) (bump : Nat) (h64 : vault_id < 2 ^ 64)
    (hsel : new_sub_account < 256)
    (hpda : find_program_address hash offCurve
      [BASE_SEED_BORING_VAULT_STATE, natLE 8 vault_id] program_id =
        some (pda, bump)) :
    set_withdraw_sub_account hash offCurve client program_id vault_id
        new_sub_account authority =
      ([RpcCall.getLatestBlockhash,
        RpcCall.sendTransaction
          (VersionedTransaction.mk
            (MessageV0.mk authority.pubkey
              [Instruction.mk program_id
                (SET_WITHDRAW_SUB_ACCOUNT_DISCRIMINATOR ++
                  (natLE 8 vault_id ++ [new_sub_account]))
                [AccountMeta.mk authority.pubkey true false,
                 AccountMeta.mk pda false true]]
              client.latest_blockhash)
            [authority.pubkey])],
       Except.ok (client.send_result
          (VersionedTransaction.mk
            (MessageV0.mk authority.pubkey
              [Instruction.mk program_id
                (SET_WITHDRAW_SUB_ACCOUNT_DISCRIMINATOR ++
                  (natLE 8 vault_id ++ [new_sub_account]))
                [AccountMeta.mk authority.pubkey true false,
                 AccountMeta.mk pda false true]]
              client.latest_blockhash)
            [authority.pubkey]))) := by
  simp only [set_withdraw_sub_account, to_bytes_le8_of_lt h64, hpda,
    encode_command_args_of_lt h64 hsel]

theorem take8_deposit_disc (x : List Nat) :
    (SET_DEPOSIT_SUB_ACCOUNT_DISCRIMINATOR ++ x).take 8 =
      SET_DEPOSIT_SUB_ACCOUNT_DISCRIMINATOR := by
  have h := List.take_left SET_DEPOSIT_SUB_ACCOUNT_DISCRIMINATOR x
  rwa [show SET_DEPOSIT_SUB_ACCOUNT_DISCRIMINATOR.length = 8 from rfl] at h

theorem drop8_deposit_disc (x : List Nat) :
    (SET_DEPOSIT_SUB_ACCOUNT_DISCRIMINATOR ++ x).drop 8 = x := by
  have h := List.drop_left SET_DEPOSIT_SUB_ACCOUNT_DISCRIMINATOR x
  rwa [show SET_DEPOSIT_SUB_ACCOUNT_DISCRIMINATOR.length = 8 from rfl] at h

theorem take8_withdraw_disc (x : List Nat) :
    (SET_WITHDRAW_SUB_ACCOUNT_DISCRIMINATOR ++ x).take 8 =
      SET_WITHDRAW_SUB_ACCOUNT_DISCRIMINATOR := by
  have h := List.take_left SET_WITHDRAW_SUB_ACCOUNT_DISCRIMINATOR x
  rwa [show SET_WITHDRAW_SUB_ACCOUNT_DISCRIMINATOR.length = 8 from rfl] at h

theorem drop8_withdraw_disc (x : List Nat) :
    (SET_WITHDRAW_SUB_ACCOUNT_DISCRIMINATOR ++ x).drop 8 = x := by
  have h := List.drop_left SET_WITHDRAW_SUB_ACCOUNT_DISCRIMINATOR x
  rwa [show SET_WITHDRAW_SUB_ACCOUNT_DISCRIMINATOR.length = 8 from rfl] at h

/-- C6: every instruction carried by a transaction either builder submits
has exactly two account references, in order the authority public key
marked signer and non-writable, then the derived vault-state address marked
non-signer and writable. -/
theorem builders_account_metas
    (hash : List Nat → List Nat) (offCurve : List Nat → Bool)
    (client : Client) (program_id : Pubkey) (vault_id new_sub_account : Nat)
    (authority : Keypair) (pda : Pubkey) (bump : Nat)
    (h64 : vault_id < 2 ^ 64) (hsel : new_sub_account < 256)
    (hpda : find_program_address hash offCurve
      [BASE_SEED_BORING_VAULT_STATE, natLE 8 vault_id] program_id =
        some (pda, bump)) :
    (∀ tx : VersionedTransaction,
      RpcCall.sendTransaction tx ∈
        (set_deposit_sub_account hash offCurve client program_id vault_id
          new_sub_account authority).1 →
      ∀ i ∈ tx.message.instructions,
        i.accounts = [AccountMeta.mk authority.pubkey true false,
                      AccountMeta.mk pda false true]) ∧
    (∀ tx : VersionedTransaction,
      RpcCall.sendTransaction tx ∈
        (set_withdraw_sub_account hash offCurve client program_id vault_id
          new_sub_account authority).1 →
      ∀ i ∈ tx.message.instructions,
        i.accounts = [AccountMeta.mk authority.pubkey true false,
                      AccountMeta.mk pda false true]) := by
  constructor
  · intro tx htx i hi
    rw [set_deposit_sub_account_eq hash offCurve client program_id vault_id
      new_sub_account authority pda bump h64 hsel hpda] at htx
    simp only [List.mem_cons, List.not_mem_nil, or_false, reduceCtorEq,
      false_or, RpcCall.sendTransaction.injEq] at htx
    subst htx
    simp only [List.mem_singleton] at hi
    subst hi
    rfl
  · intro tx htx i hi
    rw [set_withdraw_sub_account_eq hash offCurve client program_id vault_id
      new_sub_account authority pda bump h64 hsel hpda] at htx
    simp only [List.mem_cons, List.not_mem_nil, or_false, reduceCtorEq,
      false_or, RpcCall.sendTransaction.injEq] at htx
    subst htx
    simp only [List.mem_singleton] at hi
    subst hi
    rfl

theorem builders_account_metas_witness :
    (∀ tx : VersionedTransaction,
      RpcCall.sendTransaction tx ∈
        (set_deposit_sub_account (fun _ => List.replicate 32 1)
          (fun _ => true) (Client.mk [3] (fun _ => [9])) [2] 1 5
          (Keypair.mk [7])).1 →
      ∀ i ∈ tx.message.instructions,
        i.accounts = [AccountMeta.mk (Keypair.mk [7]).pubkey true false,
                      AccountMeta.mk (List.replicate 32 1) false true]) ∧
    (∀ tx : VersionedTransaction,
      RpcCall.sendTransaction tx ∈
        (set_withdraw_sub_account (fun _ => List.replicate 32 1)
          (fun _ => true) (Client.mk [3] (fun _ => [9])) [2] 1 5
          (Keypair.mk [7])).1 →
      ∀ i ∈ tx.message.instructions,
        i.accounts = [AccountMeta.mk (Keypair.mk [7]).pubkey true false,
                      AccountMeta.mk (List.replicate 32 1) false true]) :=
  builders_account_metas (fun _ => List.replicate 32 1) (fun _ => true)
    (Client.mk [3] (fun _ => [9])) [2] 1 5 (Keypair.mk [7])
    (List.replicate 32 1) 255 (by norm_num) (by norm_num) rfl

/-- C7: address derivation is a pure, deterministic function of
(program id, namespace seeds, identifier): any two invocations of
`find_program_address` on identical inputs return the identical
(address, bump) result. -/
theorem find_program_address_deterministic
    (hash : List Nat → List Nat) (offCurve : List Nat → Bool)
    (seeds : List (List Nat)) (program_id : Pubkey)
    (r1 r2 : Option (Pubkey × Nat))
    (h1 : find_program_address hash offCurve seeds program_id = r1)
    (h2 : find_program_address hash offCurve seeds program_id = r2) :
    r1 = r2 := by
  rw [← h1, ← h2]

theorem find_program_address_deterministic_witness :
    find_program_address (fun _ => List.replicate 32 1) (fun _ => true)
      [BASE_SEED_BORING_VAULT_STATE, natLE 8 1] [2] =
    find_program_address (fun _ => List.replicate 32 1) (fun _ => true)
      [BASE_SEED_BORING_VAULT_STATE, natLE 8 1] [2] :=
  find_program_address_deterministic (fun _ => List.replicate 32 1)
    (fun _ => true) [BASE_SEED_BORING_VAULT_STATE, natLE 8 1] [2]
    (some (List.replicate 32 1, 255)) (some (List.replicate 32 1, 255))
    rfl rfl

/-- C8: a new sub-account value of 256 or more makes either command builder
fail with the encoding-constraint error while its RPC-call trace stays
empty: neither the blockhash fetch nor the transaction submission happens. -/
theorem out_of_range_selector_rejected_before_network
    (hash : List Nat → List Nat) (offCurve : List Nat → Bool)
    (client : Client) (program_id : Pubkey) (vault_id new_sub_account : Nat)
    (authority : Keypair) (pda : Pubkey) (bump : Nat)
    (h64 : vault_id < 2 ^ 64)
    (hpda : find_program_address hash offCurve
      [BASE_SEED_BORING_VAULT_STATE, natLE 8 vault_id] program_id =
        some (pda, bump))
    (hsel : 256 ≤ new_sub_account) :
    set_deposit_sub_account hash offCurve client program_id vault_id
        new_sub_account authority =
      ([], Except.error BuildError.encodingConstraintViolation) ∧
    set_withdraw_sub_account hash offCurve client program_id vault_id
        new_sub_account authority =
      ([], Except.error BuildError.encodingConstraintViolation) := by
  have henc : encode_command_args vault_id new_sub_account = none := by
    simp only [encode_command_args]
    rw [if_neg]
    rintro ⟨-, hcon⟩
    omega
  constructor
  · simp only [set_deposit_sub_account, to_bytes_le8_of_lt h64, hpda, henc]
  · simp only [set_withdraw_sub_account, to_bytes_le8_of_lt h64, hpda, henc]

theorem out_of_range_selector_rejected_before_network_witness :
    set_deposit_sub_account (fun _ => List.replicate 32 1) (fun _ => true)
        (Client.mk [3] (fun _ => [9])) [2] 1 300 (Keypair.mk [7]) =
      ([], Except.error BuildError.encodingConstraintViolation) ∧
    set_withdraw_sub_account (fun _ => List.replicate 32 1) (fun _ => true)
        (Client.mk [3] (fun _ => [9])) [2] 1 300 (Keypair.mk [7]) =
      ([], Except.error BuildError.encodingConstraintViolation) :=
  out_of_range_selector_rejected_before_network
    (fun _ => List.replicate 32 1) (fun _ => true)
    (Client.mk [3] (fun _ => [9])) [2] 1 300 (Keypair.mk [7])
    (List.replicate 32 1) 255 (by norm_num) rfl (by norm_num)

/-- C9: on the happy path each builder performs exactly the blockhash fetch
followed by the transaction submission, returns the transport's tracking
identifier for the submitted transaction as its result, and its trace holds
no confirmation-polling call: confirmation is left to the caller. -/
theorem submit_returns_tracking_id_without_confirmation
    (hash : List Nat → List Nat) (offCurve : List Nat → Bool)
    (client : Client) (program_id : Pubkey) (vault_id new_sub_account : Nat)
    (authority : Keypair) (pda : Pubkey) (bump : Nat)
    (h64 : vault_id < 2 ^ 64) (hsel : new_sub_account < 256)
    (hpda : find_program_address hash offCurve
      [BASE_SEED_BORING_VAULT_STATE, natLE 8 vault_id] program_id =
        some (pda, bump)) :
    ∃ txd txw : VersionedTransaction,
      set_deposit_sub_account hash offCurve client program_id vault_id
          new_sub_account authority =
        ([RpcCall.getLatestBlockhash, RpcCall.sendTransaction txd],
         Except.ok (client.send_result txd)) ∧
      set_withdraw_sub_account hash offCurve client program_id vault_id
          new_sub_account authority =
        ([RpcCall.getLatestBlockhash, RpcCall.sendTransaction txw],
         Except.ok (client.send_result txw)) ∧
      (∀ s, RpcCall.confirmTransaction s ∉
        (set_deposit_sub_account hash offCurve client program_id vault_id
          new_sub_account authority).1) ∧
      (∀ s, RpcCall.confirmTransaction s ∉
        (set_withdraw_sub_account hash offCurve client program_id vault_id
          new_sub_account authority).1) := by
  refine ⟨_, _,
    set_deposit_sub_account_eq hash offCurve client program_id vault_id
      new_sub_account authority pda bump h64 hsel hpda,
    set_withdraw_sub_account_eq hash offCurve client program_id vault_id
      new_sub_account authority pda bump h64 hsel hpda, ?_, ?_⟩
  · intro s hs
    rw [set_deposit_sub_account_eq hash offCurve client program_id vault_id
      new_sub_account authority pda bump h64 hsel hpda] at hs
    simp at hs
  · intro s hs
    rw [set_withdraw_sub_account_eq hash offCurve client program_id vault_id
      new_sub_account authority pda bump h64 hsel hpda] at hs
    simp at hs

theorem submit_returns_tracking_id_without_confirmation_witness :
    ∃ txd txw : VersionedTransaction,
      set_deposit_sub_account (fun _ => List.replicate 32 1) (fun _ => true)
          (Client.mk [3] (fun _ => [9])) [2] 1 5 (Keypair.mk [7]) =
        ([RpcCall.getLatestBlockhash, RpcCall.sendTransaction txd],
         Except.ok ((Client.mk [3] (fun _ => [9])).send_result txd)) ∧
      set_withdraw_sub_account (fun _ => List.replicate 32 1) (fun _ => true)
          (Client.mk [3] (fun _ => [9])) [2] 1 5 (Keypair.mk [7]) =
        ([RpcCall.getLatestBlockhash, RpcCall.sendTransaction txw],
         Except.ok ((Client.mk [3] (fun _ => [9])).send_result txw)) ∧
      (∀ s, RpcCall.confirmTransaction s ∉
        (set_deposit_sub_account (fun _ => List.replicate 32 1)
          (fun _ => true) (Client.mk [3] (fun _ => [9])) [2] 1 5
          (Keypair.mk [7])).1) ∧
      (∀ s, RpcCall.confirmTransaction s ∉
        (set_withdraw_sub_account (fun _ => List.replicate 32 1)
          (fun _ => true) (Client.mk [3] (fun _ => [9])) [2] 1 5
          (Keypair.mk [7])).1) :=
  submit_returns_tracking_id_without_confirmation
    (fun _ => List.replicate 32 1) (fun _ => true)
    (Client.mk [3] (fun _ => [9])) [2] 1 5 (Keypair.mk [7])
    (List.replicate 32 1) 255 (by norm_num) (by norm_num) rfl

/-- C10: on identical inputs the deposit and withdraw builders submit
transactions whose single instructions target the same program, carry the
same two account references — headed by the authority and the vault-state
address derived from the shared namespace seed — and whose data agree byte
for byte after the first 8 bytes, those 8 leading bytes being each
command's own discriminator. -/
theorem deposit_withdraw_coherence
    (hash : List Nat → List Nat) (offCurve : List Nat → Bool)
    (client : Client) (program_id : Pubkey) (vault_id new_sub_account : Nat)
    (authority : Keypair) (pda : Pubkey) (bump : Nat)
    (h64 : vault_id < 2 ^ 64) (hsel : new_sub_account < 256)
    (hpda : find_program_address hash offCurve
      [BASE_SEED_BORING_VAULT_STATE, natLE 8 vault_id] program_id =
        some (pda, bump)) :
    ∃ di wi : Instruction, ∃ txd txw : VersionedTransaction,
      set_deposit_sub_account hash offCurve client program_id vault_id
          new_sub_account authority =
        ([RpcCall.getLatestBlockhash, RpcCall.sendTransaction txd],
         Except.ok (client.send_result txd)) ∧
      set_withdraw_sub_account hash offCurve client program_id vault_id
          new_sub_account authority =
        ([RpcCall.getLatestBlockhash, RpcCall.sendTransaction txw],
         Except.ok (client.send_result txw)) ∧
      txd.message.instructions = [di] ∧
      txw.message.instructions = [wi] ∧
      di.program_id = wi.program_id ∧
      di.accounts = wi.accounts ∧
      di.accounts = [AccountMeta.mk authority.pubkey true false,
                     AccountMeta.mk pda false true] ∧
      di.data.take 8 = SET_DEPOSIT_SUB_ACCOUNT_DISCRIMINATOR ∧
      wi.data.take 8 = SET_WITHDRAW_SUB_ACCOUNT_DISCRIMINATOR ∧
      di.data.drop 8 = wi.data.drop 8 ∧
      di.data.drop 8 = natLE 8 vault_id ++ [new_sub_account] := by
  refine ⟨Instruction.mk program_id
      (SET_DEPOSIT_SUB_ACCOUNT_DISCRIMINATOR ++
        (natLE 8 vault_id ++ [new_sub_account]))
      [AccountMeta.mk authority.pubkey true false,
       AccountMeta.mk pda false true],
    Instruction.mk program_id
      (SET_WITHDRAW_SUB_ACCOUNT_DISCRIMINATOR ++
        (natLE 8 vault_id ++ [new_sub_account]))
      [AccountMeta.mk authority.pubkey true false,
       AccountMeta.mk pda false true],
    _, _,
    set_deposit_sub_account_eq hash offCurve client program_id vault_id
      new_sub_account authority pda bump h64 hsel hpda,
    set_withdraw_sub_account_eq hash offCurve client program_id vault_id
      new_sub_account authority pda bump h64 hsel hpda,
    rfl, rfl, rfl, rfl, rfl, ?_, ?_, ?_, ?_⟩
  · exact take8_deposit_disc _
  · exact take8_withdraw_disc _
  · rw [drop8_deposit_disc, drop8_withdraw_disc]
  · exact drop8_deposit_disc _

theorem deposit_withdraw_coherence_witness :
    ∃ di wi : Instruction, ∃ txd txw : VersionedTransaction,
      set_deposit_sub_account (fun _ => List.replicate 32 1) (fun _ => true)
          (Client.mk [3] (fun _ => [9])) [2] 1 10 (Keypair.mk [7]) =
        ([RpcCall.getLatestBlockhash, RpcCall.sendTransaction txd],
         Except.ok ((Client.mk [3] (fun _ => [9])).send_result txd)) ∧
      set_withdraw_sub_account (fun _ => List.replicate 32 1) (fun _ => true)
          (Client.mk [3] (fun _ => [9])) [2] 1 10 (Keypair.mk [7]) =
        ([RpcCall.getLatestBlockhash, RpcCall.sendTransaction txw],
         Except.ok ((Client.mk [3] (fun _ => [9])).send_result txw)) ∧
      txd.message.instructions = [di] ∧
      txw.message.instructions = [wi] ∧
      di.program_id = wi.program_id ∧
      di.accounts = wi.accounts ∧
      di.accounts = [AccountMeta.mk (Keypair.mk [7]).pubkey true false,
                     AccountMeta.mk (List.replicate 32 1) false true] ∧
      di.data.take 8 = SET_DEPOSIT_SUB_ACCOUNT_DISCRIMINATOR ∧
      wi.data.take 8 = SET_WITHDRAW_SUB_ACCOUNT_DISCRIMINATOR ∧
      di.data.drop 8 = wi.data.drop 8 ∧
      di.data.drop 8 = natLE 8 1 ++ [10] :=
  deposit_withdraw_coherence (fun _ => List.replicate 32 1) (fun _ => true)
    (Client.mk [3] (fun _ => [9])) [2] 1 10 (Keypair.mk [7])
    (List.replicate 32 1) 255 (by norm_num) (by norm_num) rfl
